import Mathlib

/-!
Verification of the TaxAssist document-lifecycle, request-aggregation and
offer logic against its specification.  The definitions below are shallow
embeddings of the corresponding JavaScript functions of the frontend
(`frontend/src/pages/ClientRequest.js`, `ClientDashboard.js`, `ClientPlans.js`,
`AdminOffers.js`).  The FastAPI backend (`backend/server.py`) is not part of
the corpus; the handful of backend operations needed here (document upload /
replace, unlock, notification batching) are modelled from the specification
and are marked as such in their doc comments.

JavaScript numbers are embedded as rationals (`ℚ`), `Math.round` as
`jsRound`, `Math.max` as `max`, and `Array.prototype.find` as `List.find?`.
-/

/-- Document review status, the four stored states of the document
lifecycle (spec §4.1).  The fifth, virtual state `missing` is the absence
of a row and is represented by `Option`/`SlotStatus.missing` below. -/
inductive DocStatus
  | pending
  | approved
  | rejected
  | needs_revision
  deriving DecidableEq, Repr

/-- A document row, with the fields the frontend logic reads
(`id`, `document_type`, `name`, `status`, `admin_notes`, `unlocked_by`). -/
structure Document where
  id : Nat
  document_type : String
  name : String
  status : DocStatus
  admin_notes : Option String := none
  unlocked_by : Option Nat := none
  deriving DecidableEq, Repr

/-- The fields of a filing request read by the client request page:
the plan snapshot's required document types, the payment status
(`"unpaid"` or `"paid"`) and the admin-curated request status string. -/
structure FilingRequest where
  required_documents : List String
  payment_status : String
  status : String
  deriving DecidableEq, Repr

/-- JavaScript `Math.round` on a rational: round half away from zero for
nonnegative arguments (the only regime exercised here), i.e. `⌊q + 1/2⌋`. -/
def jsRound (q : ℚ) : Int :=
  ⌊q + 1 / 2⌋

/-- JavaScript `Array.prototype.indexOf`: index of the first occurrence,
`-1` when absent. -/
def jsIndexOf (l : List String) (s : String) : Int :=
  match l with
  | [] => -1
  | a :: t =>
    if a == s then 0
    else
      let r := jsIndexOf t s
      if r == -1 then -1 else r + 1

namespace ClientRequest

/-- Embedding of `getDocumentForType` (ClientRequest.js:64-66):
`documents.find(d => d.document_type === docType)`. -/
def getDocumentForType (documents : List Document) (docType : String) :
    Option Document :=
  documents.find? (fun d => d.document_type == docType)

/-- Embedding of `allDocsUploaded` (ClientRequest.js:78-84): every required
document type has a current document row, of any status. -/
def allDocsUploaded (request : FilingRequest) (documents : List Document) :
    Bool :=
  request.required_documents.all
    (fun docType => (getDocumentForType documents docType).isSome)

/-- Embedding of `hasRejectedDocs` (ClientRequest.js:87-89): some current
document (required or additional) is `rejected` or `needs_revision`. -/
def hasRejectedDocs (documents : List Document) : Bool :=
  documents.any
    (fun d => d.status == DocStatus.rejected
      || d.status == DocStatus.needs_revision)

/-- Embedding of `canPay` (ClientRequest.js:250):
`allDocsUploaded() && request.payment_status === 'unpaid' && !hasRejectedDocs()`. -/
def canPay (request : FilingRequest) (documents : List Document) : Bool :=
  allDocsUploaded request documents
    && (request.payment_status == "unpaid")
    && !(hasRejectedDocs documents)

/-- Slot status of a required document type as computed by `getDocStatus`
(ClientRequest.js:214-226): the stored status of the current row, or
`missing` when there is no row. -/
inductive SlotStatus
  | missing
  | pending
  | approved
  | rejected
  | needs_revision
  deriving DecidableEq, Repr

/-- Embedding of the `status` component of `getDocStatus`
(ClientRequest.js:214-226). -/
def getDocStatus (documents : List Document) (docType : String) : SlotStatus :=
  match getDocumentForType documents docType with
  | none => SlotStatus.missing
  | some d =>
    match d.status with
    | DocStatus.pending => SlotStatus.pending
    | DocStatus.approved => SlotStatus.approved
    | DocStatus.rejected => SlotStatus.rejected
    | DocStatus.needs_revision => SlotStatus.needs_revision

/-- Embedding of `isClickable` (ClientRequest.js:305): a slot is clickable
exactly when its status is `missing`, `rejected` or `needs_revision`. -/
def isClickable (documents : List Document) (docType : String) : Bool :=
  getDocStatus documents docType == SlotStatus.missing
    || getDocStatus documents docType == SlotStatus.rejected
    || getDocStatus documents docType == SlotStatus.needs_revision

/-- The component state mutated by `handleDocumentClick`: which slot an
upload is being prepared for, the id of a document being replaced, the
prefilled name, and whether the hidden file input was clicked. -/
structure UploadUIState where
  uploadingFor : Option String := none
  replaceDocId : Option Nat := none
  docName : String := ""
  fileDialogOpened : Bool := false
  deriving DecidableEq, Repr

/-- Embedding of `handleDocumentClick` (ClientRequest.js:92-106): replacing
is prepared when the existing document is `rejected` or `needs_revision`;
when a document exists in any other status the handler returns early and no
upload is initiated; when no document exists an upload is prepared. -/
def handleDocumentClick (documents : List Document) (docType : String)
    (s : UploadUIState) : UploadUIState :=
  match getDocumentForType documents docType with
  | some existingDoc =>
    if existingDoc.status = DocStatus.rejected
        ∨ existingDoc.status = DocStatus.needs_revision then
      { s with replaceDocId := some existingDoc.id,
               uploadingFor := some docType,
               docName := docType,
               fileDialogOpened := true }
    else s
  | none =>
    { s with uploadingFor := some docType,
             docName := docType,
             fileDialogOpened := true }

/-- Embedding of `getProgress` (ClientRequest.js:228-236):
`Math.round((approved / total) * 100)` where `approved` counts the required
types whose current document is approved.  For an empty required list the
JavaScript expression is `NaN`; the embedding is only used, and only claimed
faithful, for a nonempty required list (`total ≠ 0` in every theorem). -/
def getProgress (request : FilingRequest) (documents : List Document) : Int :=
  let total := request.required_documents.length
  let approved :=
    (request.required_documents.filter (fun dt =>
      match getDocumentForType documents dt with
      | some d => d.status == DocStatus.approved
      | none => false)).length
  jsRound ((approved : ℚ) / (total : ℚ) * 100)

/-- A file chosen in the hidden file input: its byte size and name. -/
structure SelectedFile where
  size : Nat
  name : String
  deriving DecidableEq, Repr

/-- Embedding of `handleFileSelect` (ClientRequest.js:109-122, identically
in the earlier revision's handler): a file larger than `10 * 1024 * 1024`
bytes is rejected with a size error and no upload state is set; otherwise
the file is accepted into the upload dialog. -/
def handleFileSelect (file : SelectedFile) : Except String SelectedFile :=
  if file.size > 10 * 1024 * 1024 then
    Except.error "File size must be less than 10MB"
  else
    Except.ok file

end ClientRequest

/-- C2: `canPay` is true iff all required document types have a current row,
the request is unpaid, and no current document (required or additional) is
`rejected` or `needs_revision`; in particular any rejected/needs-revision
document forces `canPay = false` regardless of `allDocsUploaded`. -/
theorem canPay_characterisation (request : FilingRequest)
    (documents : List Document) :
    (ClientRequest.canPay request documents = true ↔
      ((∀ t ∈ request.required_documents,
          ∃ d ∈ documents, d.document_type = t)
        ∧ request.payment_status = "unpaid"
        ∧ ∀ d ∈ documents,
            d.status ≠ DocStatus.rejected ∧ d.status ≠ DocStatus.needs_revision))
    ∧ (∀ d ∈ documents,
        (d.status = DocStatus.rejected ∨ d.status = DocStatus.needs_revision) →
        ClientRequest.canPay request documents = false) := by
  constructor
  · simp only [ClientRequest.canPay, ClientRequest.allDocsUploaded,
      ClientRequest.hasRejectedDocs, ClientRequest.getDocumentForType,
      Bool.and_eq_true, Bool.not_eq_true', List.all_eq_true,
      List.any_eq_false, List.find?_isSome, beq_iff_eq]
    constructor
    · rintro ⟨⟨h1, h2⟩, h3⟩
      refine ⟨?_, h2, ?_⟩
      · intro t ht
        obtain ⟨d, hd, htype⟩ := h1 t ht
        exact ⟨d, hd, htype⟩
      · intro d hd
        have := h3 d hd
        simpa using this
    · rintro ⟨h1, h2, h3⟩
      refine ⟨⟨?_, h2⟩, ?_⟩
      · intro t ht
        obtain ⟨d, hd, htype⟩ := h1 t ht
        exact ⟨d, hd, htype⟩
      · intro d hd
        have := h3 d hd
        simp [this.1, this.2]
  · intro d hd hstat
    simp only [ClientRequest.canPay, ClientRequest.hasRejectedDocs,
      Bool.and_eq_false_iff]
    right
    simp only [Bool.not_eq_false', List.any_eq_true]
    refine ⟨d, hd, ?_⟩
    rcases hstat with h | h <;> simp [h]

/-- Witness for C2 at a concrete request: one required type, uploaded but
rejected, so `canPay` is false. -/
theorem canPay_characterisation_witness :
    ClientRequest.canPay
      { required_documents := ["Form 16"], payment_status := "unpaid",
        status := "pending" }
      [{ id := 1, document_type := "Form 16", name := "f",
         status := DocStatus.rejected }] = false := by
  exact (canPay_characterisation _ _).2
    { id := 1, document_type := "Form 16", name := "f",
      status := DocStatus.rejected }
    (by simp) (Or.inl rfl)

/-- Number of current document rows carrying a given document type. -/
def typeCount (documents : List Document) (docType : String) : Nat :=
  (documents.filter (fun d => d.document_type == docType)).length

/-- Invariant of spec §3: at most one current document row per
(request, document_type). -/
def atMostOnePerType (documents : List Document) : Prop :=
  ∀ docType, typeCount documents docType ≤ 1

/-- Error raised by the backend when a client uploads against an approved
document (spec §4.1: "document is locked"). -/
inductive UploadError
  | documentLocked
  deriving DecidableEq, Repr

/-- Modelled from the spec: the backend upload/replace handler
(`POST /api/requests/:id/documents/upload` in `backend/server.py`, which is
not part of the corpus).  Per spec §4.1 and §5: when no current document of
the given type exists a new row is appended in state `pending`; when the
current document is `approved` the upload is rejected with a "document is
locked" error; otherwise (`rejected`, `needs_revision`, or `pending` under
the last-write-wins contract of §5) the existing row is overwritten in
place — same row id, content fields replaced, status reset to `pending`. -/
def uploadDocument (documents : List Document) (docType newName : String)
    (newId : Nat) : Except UploadError (List Document) :=
  match ClientRequest.getDocumentForType documents docType with
  | some d =>
    if d.status = DocStatus.approved then
      Except.error UploadError.documentLocked
    else
      Except.ok (documents.map (fun x =>
        if x.id = d.id then { x with name := newName, status := DocStatus.pending }
        else x))
  | none =>
    Except.ok (documents ++
      [{ id := newId, document_type := docType, name := newName,
         status := DocStatus.pending }])

/-- Error raised by the backend unlock endpoint on a non-approved
document (spec §7: `InvalidState`). -/
inductive UnlockError
  | invalidState
  deriving DecidableEq, Repr

/-- Modelled from the spec: the backend unlock handler
(`POST /api/admin/documents/:id/allow-change` in `backend/server.py`, which
is not part of the corpus).  Per spec §4.1: `approved` → `needs_revision`
only, recording the acting admin's id in `unlocked_by`; on any other state
the action fails with `InvalidState` and the document is unchanged. -/
def unlockDocument (d : Document) (adminId : Nat) : Except UnlockError Document :=
  if d.status = DocStatus.approved then
    Except.ok { d with status := DocStatus.needs_revision,
                       unlocked_by := some adminId }
  else
    Except.error UnlockError.invalidState

/-- A map that does not change `document_type` commutes with
`getDocumentForType`. -/
theorem getDocumentForType_map (f : Document → Document)
    (hf : ∀ x, (f x).document_type = x.document_type)
    (documents : List Document) (docType : String) :
    ClientRequest.getDocumentForType (documents.map f) docType =
      (ClientRequest.getDocumentForType documents docType).map f := by
  unfold ClientRequest.getDocumentForType
  rw [List.find?_map]
  have hpf : ((fun d => d.document_type == docType) ∘ f)
      = (fun d : Document => d.document_type == docType) := by
    funext x
    simp [Function.comp, hf]
  rw [hpf]

/-- A map that does not change `document_type` preserves `typeCount`. -/
theorem typeCount_map (f : Document → Document)
    (hf : ∀ x, (f x).document_type = x.document_type)
    (documents : List Document) (docType : String) :
    typeCount (documents.map f) docType = typeCount documents docType := by
  unfold typeCount
  rw [List.filter_map, List.length_map]
  congr 1
  apply List.filter_congr
  intro x _
  simp [Function.comp, hf]

/-- C7: the unlock operation succeeds exactly on an `approved` document,
transitioning it to `needs_revision` and recording the acting admin in
`unlocked_by`; on a document in any other state (e.g. `pending`) it fails
with `InvalidState` and produces no changed document. -/
theorem unlock_only_from_approved (d : Document) (adminId : Nat) :
    (d.status = DocStatus.approved →
      unlockDocument d adminId =
        Except.ok { d with status := DocStatus.needs_revision,
                           unlocked_by := some adminId })
    ∧ (d.status ≠ DocStatus.approved →
      unlockDocument d adminId = Except.error UnlockError.invalidState) := by
  constructor
  · intro h
    unfold unlockDocument
    rw [if_pos h]
  · intro h
    unfold unlockDocument
    rw [if_neg h]

/-- Witness for C7: unlock succeeds on a concrete approved document and
fails with `InvalidState` on a concrete pending document. -/
theorem unlock_only_from_approved_witness :
    unlockDocument
        { id := 1, document_type := "Form 16", name := "f",
          status := DocStatus.approved } 7 =
      Except.ok { id := 1, document_type := "Form 16", name := "f",
                  status := DocStatus.needs_revision, unlocked_by := some 7 }
    ∧ unlockDocument
        { id := 2, document_type := "PAN", name := "p",
          status := DocStatus.pending } 7 =
      Except.error UnlockError.invalidState := by
  exact ⟨(unlock_only_from_approved _ 7).1 rfl,
         (unlock_only_from_approved _ 7).2 (by decide)⟩

/-- C3: replacing a `rejected` or `needs_revision` document overwrites the
current row in place — the result is the row-for-row image of the old list,
the current document for the type keeps its id with status reset to
`pending`, and no type's row count changes (no second row is created);
moreover any successful upload preserves the at-most-one-row-per-type
invariant. -/
theorem upload_replace_preserves_identity
    (documents : List Document) (docType newName : String) (newId : Nat)
    (d : Document)
    (hfind : ClientRequest.getDocumentForType documents docType = some d)
    (hstat : d.status = DocStatus.rejected
      ∨ d.status = DocStatus.needs_revision) :
    (uploadDocument documents docType newName newId =
      Except.ok (documents.map (fun x =>
        if x.id = d.id then
          { x with name := newName, status := DocStatus.pending }
        else x)))
    ∧ ClientRequest.getDocumentForType
        (documents.map (fun x =>
          if x.id = d.id then
            { x with name := newName, status := DocStatus.pending }
          else x)) docType =
        some { d with name := newName, status := DocStatus.pending }
    ∧ (∀ t, typeCount
        (documents.map (fun x =>
          if x.id = d.id then
            { x with name := newName, status := DocStatus.pending }
          else x)) t = typeCount documents t)
    ∧ (∀ (docsA : List Document) (typeA nameA : String) (idA : Nat)
        (docsB : List Document),
        atMostOnePerType docsA →
        uploadDocument docsA typeA nameA idA = Except.ok docsB →
        atMostOnePerType docsB) := by
  have hne : ¬ d.status = DocStatus.approved := by
    rcases hstat with h | h <;> simp [h]
  have hf : ∀ x : Document,
      ((fun x : Document =>
        if x.id = d.id then
          { x with name := newName, status := DocStatus.pending }
        else x) x).document_type = x.document_type := by
    intro x
    by_cases h : x.id = d.id <;> simp [h]
  refine ⟨?_, ?_, ?_, ?_⟩
  · unfold uploadDocument
    rw [hfind]
    exact if_neg hne
  · rw [getDocumentForType_map _ hf, hfind]
    simp
  · intro t
    exact typeCount_map _ hf documents t
  · intro docsA typeA nameA idA docsB hinv hok
    unfold uploadDocument at hok
    cases hA : ClientRequest.getDocumentForType docsA typeA with
    | some dA =>
      simp only [hA] at hok
      by_cases happ : dA.status = DocStatus.approved
      · rw [if_pos happ] at hok
        cases hok
      · rw [if_neg happ] at hok
        injection hok with h
        subst h
        intro t
        rw [typeCount_map]
        · exact hinv t
        · intro x
          by_cases h : x.id = dA.id <;> simp [h]
    | none =>
      simp only [hA] at hok
      injection hok with h
      subst h
      intro t
      unfold typeCount
      rw [List.filter_append, List.length_append]
      by_cases ht : typeA == t
      · have hzero : docsA.filter (fun x => x.document_type == t) = [] := by
          rw [List.filter_eq_nil_iff]
          intro a ha
          have hnone := List.find?_eq_none.mp hA a ha
          have : typeA = t := by simpa using ht
          subst this
          exact hnone
        rw [hzero]
        simp [List.filter_cons, ht]
      · have : docsA.filter (fun x => x.document_type == t) ≠ [] →
            True := fun _ => trivial
        have hone : List.filter (fun x => x.document_type == t)
            [({ id := idA, document_type := typeA, name := nameA,
                status := DocStatus.pending } : Document)] = [] := by
          simp [List.filter_cons, ht]
        rw [hone]
        simpa using hinv t

/-- Witness for C3 at a concrete rejected document: the upload overwrites
the single row in place and the current row of the type keeps id 1 with
status reset to `pending`. -/
theorem upload_replace_preserves_identity_witness :
    uploadDocument
        [{ id := 1, document_type := "Form 16", name := "f",
           status := DocStatus.rejected }] "Form 16" "g" 2 =
      Except.ok
        ([{ id := 1, document_type := "Form 16", name := "f",
            status := DocStatus.rejected }].map (fun x =>
          if x.id = 1 then
            { x with name := "g", status := DocStatus.pending }
          else x))
    ∧ typeCount
        ([{ id := 1, document_type := "Form 16", name := "f",
            status := DocStatus.rejected }].map (fun x =>
          if x.id = 1 then
            { x with name := "g", status := DocStatus.pending }
          else x)) "Form 16" =
      typeCount
        [{ id := 1, document_type := "Form 16", name := "f",
           status := DocStatus.rejected }] "Form 16" := by
  have h := upload_replace_preserves_identity
    [{ id := 1, document_type := "Form 16", name := "f",
       status := DocStatus.rejected }] "Form 16" "g" 2
    { id := 1, document_type := "Form 16", name := "f",
      status := DocStatus.rejected } (by rfl) (Or.inl rfl)
  exact ⟨h.1, h.2.2.1 "Form 16"⟩

/-- C1: against a document whose status is `approved`, the backend upload
is rejected with the "document is locked" error, the request-page slot is
not clickable and `handleDocumentClick` initiates nothing (state unchanged);
the admin unlock transitions the document to `needs_revision`, and an upload
against a `needs_revision` current document succeeds. -/
theorem approved_document_locked_until_unlock
    (documents : List Document) (docType newName : String)
    (newId adminId : Nat) (s : ClientRequest.UploadUIState) (d : Document)
    (hfind : ClientRequest.getDocumentForType documents docType = some d)
    (happ : d.status = DocStatus.approved) :
    uploadDocument documents docType newName newId =
      Except.error UploadError.documentLocked
    ∧ ClientRequest.isClickable documents docType = false
    ∧ ClientRequest.handleDocumentClick documents docType s = s
    ∧ unlockDocument d adminId =
        Except.ok { d with status := DocStatus.needs_revision,
                           unlocked_by := some adminId }
    ∧ (∀ (docsB : List Document) (dB : Document) (nameB : String)
        (idB : Nat),
        ClientRequest.getDocumentForType docsB docType = some dB →
        dB.status = DocStatus.needs_revision →
        ∃ docsC, uploadDocument docsB docType nameB idB =
          Except.ok docsC) := by
  refine ⟨?_, ?_, ?_, ?_, ?_⟩
  · unfold uploadDocument
    rw [hfind]
    exact if_pos happ
  · unfold ClientRequest.isClickable ClientRequest.getDocStatus
    simp only [hfind, happ]
    decide
  · unfold ClientRequest.handleDocumentClick
    simp only [hfind]
    rw [if_neg]
    rw [happ]
    simp
  · unfold unlockDocument
    rw [if_pos happ]
  · intro docsB dB nameB idB hfB hsB
    refine ⟨docsB.map (fun x =>
      if x.id = dB.id then
        { x with name := nameB, status := DocStatus.pending }
      else x), ?_⟩
    unfold uploadDocument
    rw [hfB]
    exact if_neg (by simp [hsB])

/-- Witness for C1 at a concrete approved document: the upload fails with
the locked error, the slot is not clickable, and the click handler leaves
the UI state unchanged. -/
theorem approved_document_locked_until_unlock_witness :
    uploadDocument
        [{ id := 1, document_type := "Form 16", name := "f",
           status := DocStatus.approved }] "Form 16" "g" 2 =
      Except.error UploadError.documentLocked
    ∧ ClientRequest.isClickable
        [{ id := 1, document_type := "Form 16", name := "f",
           status := DocStatus.approved }] "Form 16" = false
    ∧ ClientRequest.handleDocumentClick
        [{ id := 1, document_type := "Form 16", name := "f",
           status := DocStatus.approved }] "Form 16" {} = {} := by
  have h := approved_document_locked_until_unlock
    [{ id := 1, document_type := "Form 16", name := "f",
       status := DocStatus.approved }] "Form 16" "g" 2 9 {}
    { id := 1, document_type := "Form 16", name := "f",
      status := DocStatus.approved } (by rfl) rfl
  exact ⟨h.1, h.2.1, h.2.2.1⟩

namespace ClientPlans

/-- The fields of a plan read by `calculateFinalPrice` (ClientPlans). -/
structure Plan where
  price : ℚ
  deriving DecidableEq, Repr

/-- The fields of a validated offer read by `calculateFinalPrice`:
`discount_type` is `"percentage"` or `"fixed"`. -/
structure AppliedOffer where
  discount_type : String
  discount_value : ℚ
  deriving DecidableEq, Repr

/-- Embedding of `calculateFinalPrice` (ClientPlans.js:99-107): no plan
selected gives 0; no offer gives the plan price; a percentage offer gives
`price - price * value / 100` (no clamping in the source); a fixed offer
gives `Math.max(0, price - value)`. -/
def calculateFinalPrice (selectedPlan : Option Plan)
    (appliedOffer : Option AppliedOffer) : ℚ :=
  match selectedPlan with
  | none => 0
  | some plan =>
    match appliedOffer with
    | none => plan.price
    | some offer =>
      if offer.discount_type == "percentage" then
        plan.price - plan.price * offer.discount_value / 100
      else
        max 0 (plan.price - offer.discount_value)

end ClientPlans

/-- Unfolding lemma for `calculateFinalPrice` with a plan and an offer
both present. -/
theorem calculateFinalPrice_some_some (plan : ClientPlans.Plan)
    (offer : ClientPlans.AppliedOffer) :
    ClientPlans.calculateFinalPrice (some plan) (some offer) =
      if offer.discount_type == "percentage" then
        plan.price - plan.price * offer.discount_value / 100
      else
        max 0 (plan.price - offer.discount_value) := rfl

/-- C4 counterexample: the percentage branch of `calculateFinalPrice` is
not clamped to be nonnegative — a plan price of 1000 with a 150% offer
yields -500, not 0 as the claimed clamp would require. -/
theorem calculateFinalPrice_percentage_not_clamped :
    ClientPlans.calculateFinalPrice (some { price := 1000 })
        (some { discount_type := "percentage", discount_value := 150 }) =
      (-500 : ℚ)
    ∧ ¬ (0 : ℚ) ≤ ClientPlans.calculateFinalPrice (some { price := 1000 })
        (some { discount_type := "percentage", discount_value := 150 }) := by
  constructor
  · rw [calculateFinalPrice_some_some, if_pos (by rfl)]
    norm_num
  · rw [calculateFinalPrice_some_some, if_pos (by rfl)]
    norm_num

/-- C4 (amended): the final price is `price × (1 - value/100)` for a
percentage offer, with no clamping (nonnegative only when `value ≤ 100` and
the price is nonnegative), and `max(0, price - value)` for a fixed offer;
price 1000 with 20% gives 800 and price 1000 with fixed 1500 gives 0. -/
theorem calculateFinalPrice_spec_amended (plan : ClientPlans.Plan) (v : ℚ) :
    ClientPlans.calculateFinalPrice (some plan)
        (some { discount_type := "percentage", discount_value := v }) =
      plan.price * (1 - v / 100)
    ∧ ClientPlans.calculateFinalPrice (some plan)
        (some { discount_type := "fixed", discount_value := v }) =
      max 0 (plan.price - v)
    ∧ (0 ≤ plan.price → v ≤ 100 →
        0 ≤ ClientPlans.calculateFinalPrice (some plan)
          (some { discount_type := "percentage", discount_value := v }))
    ∧ ClientPlans.calculateFinalPrice (some { price := 1000 })
        (some { discount_type := "percentage", discount_value := 20 }) =
      (800 : ℚ)
    ∧ ClientPlans.calculateFinalPrice (some { price := 1000 })
        (some { discount_type := "fixed", discount_value := 1500 }) =
      (0 : ℚ) := by
  have hpct : ClientPlans.calculateFinalPrice (some plan)
      (some { discount_type := "percentage", discount_value := v }) =
      plan.price * (1 - v / 100) := by
    rw [calculateFinalPrice_some_some]
    rw [if_pos (by rfl)]
    ring
  refine ⟨hpct, ?_, ?_, ?_, ?_⟩
  · rw [calculateFinalPrice_some_some]
    rw [if_neg (by simp)]
  · intro hp hv
    rw [hpct]
    apply mul_nonneg hp
    have : v / 100 ≤ 1 := by linarith
    linarith
  · rw [calculateFinalPrice_some_some, if_pos (by rfl)]
    norm_num
  · rw [calculateFinalPrice_some_some]
    rw [if_neg (by decide)]
    norm_num

/-- Witness for C4 (amended) at a concrete plan and value, with the
nonnegativity hypotheses discharged at price 1000 and value 20. -/
theorem calculateFinalPrice_spec_amended_witness :
    ClientPlans.calculateFinalPrice (some { price := 1000 })
        (some { discount_type := "percentage", discount_value := 20 }) =
      (1000 : ℚ) * (1 - 20 / 100)
    ∧ (0 : ℚ) ≤ ClientPlans.calculateFinalPrice (some { price := 1000 })
        (some { discount_type := "percentage", discount_value := 20 }) := by
  have h := calculateFinalPrice_spec_amended { price := 1000 } 20
  exact ⟨h.1, h.2.2.1 (by norm_num) (by norm_num)⟩

/-- C9: a selected file strictly larger than `10 * 1024 * 1024` bytes is
rejected with the size error and no upload is initiated; a file at or below
that limit is accepted into the upload dialog. -/
theorem handleFileSelect_size_limit (file : ClientRequest.SelectedFile) :
    (10 * 1024 * 1024 < file.size →
      ClientRequest.handleFileSelect file =
        Except.error "File size must be less than 10MB")
    ∧ (file.size ≤ 10 * 1024 * 1024 →
      ClientRequest.handleFileSelect file = Except.ok file) := by
  constructor
  · intro h
    unfold ClientRequest.handleFileSelect
    rw [if_pos h]
  · intro h
    unfold ClientRequest.handleFileSelect
    rw [if_neg (by omega)]

/-- Witness for C9: a file one byte over the limit is rejected; a file
exactly at the limit is accepted. -/
theorem handleFileSelect_size_limit_witness :
    ClientRequest.handleFileSelect { size := 10485761, name := "big.pdf" } =
      Except.error "File size must be less than 10MB"
    ∧ ClientRequest.handleFileSelect { size := 10485760, name := "ok.pdf" } =
      Except.ok { size := 10485760, name := "ok.pdf" } := by
  exact ⟨(handleFileSelect_size_limit _).1 (by norm_num),
         (handleFileSelect_size_limit _).2 (by norm_num)⟩

/-- C10: when the required-documents list is nonempty, the request-page
progress is an integer between 0 and 100 inclusive.  (The nonemptiness
hypothesis is necessary: the source divides by the count of required types
with no guard, so the JavaScript expression is `NaN` on an empty list.) -/
theorem getProgress_bounds (request : FilingRequest)
    (documents : List Document)
    (h : request.required_documents ≠ []) :
    0 ≤ ClientRequest.getProgress request documents
    ∧ ClientRequest.getProgress request documents ≤ 100 := by
  have hkey : ClientRequest.getProgress request documents =
      ⌊((request.required_documents.filter (fun dt =>
          match ClientRequest.getDocumentForType documents dt with
          | some d => d.status == DocStatus.approved
          | none => false)).length : ℚ) /
        (request.required_documents.length : ℚ) * 100 + 1 / 2⌋ := rfl
  rw [hkey]
  set a := (request.required_documents.filter (fun dt =>
    match ClientRequest.getDocumentForType documents dt with
    | some d => d.status == DocStatus.approved
    | none => false)).length with ha
  set n := request.required_documents.length with hn
  have hnpos : 0 < n := by
    rw [hn]
    exact List.length_pos.mpr h
  have han : a ≤ n := by
    rw [ha, hn]
    exact List.length_filter_le _ _
  have hq0 : (0 : ℚ) ≤ (a : ℚ) / (n : ℚ) * 100 := by
    positivity
  have hq1 : (a : ℚ) / (n : ℚ) * 100 ≤ 100 := by
    have hdiv : (a : ℚ) / (n : ℚ) ≤ 1 := by
      rw [div_le_one (by exact_mod_cast hnpos)]
      exact_mod_cast han
    nlinarith
  constructor
  · rw [Int.le_floor]
    push_cast
    linarith
  · have : ⌊(a : ℚ) / (n : ℚ) * 100 + 1 / 2⌋ < 101 := by
      rw [Int.floor_lt]
      push_cast
      linarith
    omega

/-- Witness for C10 at a concrete request with two required types, one of
them approved: the progress is within bounds. -/
theorem getProgress_bounds_witness :
    0 ≤ ClientRequest.getProgress
        { required_documents := ["Form 16", "PAN"],
          payment_status := "unpaid", status := "pending" }
        [{ id := 1, document_type := "Form 16", name := "f",
           status := DocStatus.approved }]
    ∧ ClientRequest.getProgress
        { required_documents := ["Form 16", "PAN"],
          payment_status := "unpaid", status := "pending" }
        [{ id := 1, document_type := "Form 16", name := "f",
           status := DocStatus.approved }] ≤ 100 := by
  exact getProgress_bounds _ _ (by simp)

namespace AdminOffers

/-- An offer as read by the admin offers page: active flag, validity
window (timestamps embedded as integers), optional usage cap, use counter
and the per-identity usage ledger (email, phone pairs). -/
structure Offer where
  code : String
  is_active : Bool
  valid_from : Int
  valid_until : Int
  max_uses : Option Nat := none
  current_uses : Nat := 0
  used_by : List (String × String) := []
  deriving DecidableEq, Repr

/-- Embedding of `isOfferActive` (AdminOffers.js:144-149):
`offer.is_active && now >= validFrom && now <= validUntil`.  Note the
source consults only the active flag and the validity window. -/
def isOfferActive (now : Int) (offer : Offer) : Bool :=
  offer.is_active && decide (offer.valid_from ≤ now)
    && decide (now ≤ offer.valid_until)

/-- Embedding of `activeOffers` (AdminOffers.js:151). -/
def activeOffers (now : Int) (offers : List Offer) : List Offer :=
  offers.filter (fun o => isOfferActive now o)

/-- Embedding of `inactiveOffers` (AdminOffers.js:152). -/
def inactiveOffers (now : Int) (offers : List Offer) : List Offer :=
  offers.filter (fun o => !isOfferActive now o)

end AdminOffers

/-- C6 counterexample: an exhausted offer (`max_uses = 1`,
`current_uses = 1`) with the active flag set and the clock inside its
validity window is still classified active by `isOfferActive`, although the
claim says an offer with `current_uses ≥ max_uses` is never classified
usable. -/
theorem isOfferActive_ignores_exhaustion :
    AdminOffers.isOfferActive 50
        { code := "SAVE", is_active := true, valid_from := 0,
          valid_until := 100, max_uses := some 1, current_uses := 1,
          used_by := [("a@b.c", "123")] } = true
    ∧ ({ code := "SAVE", is_active := true, valid_from := 0,
         valid_until := 100, max_uses := some 1, current_uses := 1,
         used_by := [("a@b.c", "123")] } : AdminOffers.Offer).max_uses =
        some 1
    ∧ ({ code := "SAVE", is_active := true, valid_from := 0,
         valid_until := 100, max_uses := some 1, current_uses := 1,
         used_by := [("a@b.c", "123")] } : AdminOffers.Offer).current_uses =
        1 := by
  refine ⟨?_, rfl, rfl⟩
  decide

/-- C6 (amended): the admin-page classification `isOfferActive` deems an
offer active exactly when its active flag is set and the current time lies
within `[valid_from, valid_until]`; `max_uses`, `current_uses` and the
usage ledger do not influence this classification (those limits are
enforced by the separate validation path, spec §4.3), and the page's
active/inactive lists are the corresponding filters. -/
theorem isOfferActive_characterisation_amended (now : Int)
    (offer : AdminOffers.Offer) :
    (AdminOffers.isOfferActive now offer = true ↔
      (offer.is_active = true ∧ offer.valid_from ≤ now
        ∧ now ≤ offer.valid_until))
    ∧ (∀ (mu : Option Nat) (uses : Nat) (ledger : List (String × String)),
        AdminOffers.isOfferActive now
          { offer with max_uses := mu, current_uses := uses,
                       used_by := ledger } =
        AdminOffers.isOfferActive now offer)
    ∧ (∀ offers : List AdminOffers.Offer,
        AdminOffers.activeOffers now offers =
          offers.filter (fun o => AdminOffers.isOfferActive now o)
        ∧ AdminOffers.inactiveOffers now offers =
          offers.filter (fun o => !AdminOffers.isOfferActive now o)) := by
  refine ⟨?_, ?_, ?_⟩
  · unfold AdminOffers.isOfferActive
    simp [Bool.and_eq_true, and_assoc]
  · intro mu uses ledger
    unfold AdminOffers.isOfferActive
    rfl
  · intro offers
    exact ⟨rfl, rfl⟩

namespace ClientDashboard

/-- The request status stages consulted by the dashboard progress bar
(ClientDashboard.js:43). -/
def stages : List String :=
  ["pending", "documents_uploaded", "under_review", "completed"]

/-- Embedding of `getProgress` (ClientDashboard.js:42-46):
`Math.max(((stages.indexOf(status) + 1) / stages.length) * 100, 25)` — a
function of the request status string alone, independent of documents. -/
def getProgress (status : String) : ℚ :=
  max (((jsIndexOf stages status : ℚ) + 1) / (stages.length : ℚ) * 100) 25

end ClientDashboard

/-- C5 counterexample: for a request in status `pending` whose single
required document is approved, the request page displays 100 while the
dashboard displays 25 — so the progress shown is not the approved-ratio
formula "wherever progress is displayed". -/
theorem dashboard_progress_differs :
    ClientRequest.getProgress
        { required_documents := ["Form 16"], payment_status := "unpaid",
          status := "pending" }
        [{ id := 1, document_type := "Form 16", name := "f",
           status := DocStatus.approved }] = 100
    ∧ ClientDashboard.getProgress "pending" = 25
    ∧ ClientDashboard.getProgress "pending" ≠
        ((ClientRequest.getProgress
          { required_documents := ["Form 16"], payment_status := "unpaid",
            status := "pending" }
          [{ id := 1, document_type := "Form 16", name := "f",
             status := DocStatus.approved }] : Int) : ℚ) := by
  have h1 : ClientRequest.getProgress
      { required_documents := ["Form 16"], payment_status := "unpaid",
        status := "pending" }
      [{ id := 1, document_type := "Form 16", name := "f",
         status := DocStatus.approved }] = 100 := by
    have hx : ClientRequest.getProgress
        { required_documents := ["Form 16"], payment_status := "unpaid",
          status := "pending" }
        [{ id := 1, document_type := "Form 16", name := "f",
           status := DocStatus.approved }] = jsRound ((1 : ℚ) / 1 * 100) := by
      simp [ClientRequest.getProgress, ClientRequest.getDocumentForType,
        List.find?, List.filter]
    rw [hx]
    unfold jsRound
    norm_num
  have h2 : ClientDashboard.getProgress "pending" = 25 := by
    have hidx : jsIndexOf ClientDashboard.stages "pending" = 0 := by decide
    unfold ClientDashboard.getProgress
    rw [hidx]
    norm_num [ClientDashboard.stages]
  refine ⟨h1, h2, ?_⟩
  rw [h1, h2]
  norm_num

/-- Under the at-most-one-row-per-type invariant, `getDocumentForType`
finds exactly the member of the list carrying the type. -/
theorem getDocumentForType_eq_of_unique (documents : List Document)
    (t : String) (h : typeCount documents t ≤ 1) (d : Document)
    (hd : d ∈ documents) (ht : d.document_type = t) :
    ClientRequest.getDocumentForType documents t = some d := by
  induction documents with
  | nil => cases hd
  | cons a l ih =>
    by_cases ha : (a.document_type == t) = true
    · have hfind : ClientRequest.getDocumentForType (a :: l) t = some a := by
        unfold ClientRequest.getDocumentForType
        exact List.find?_cons_of_pos _ ha
      rcases List.mem_cons.mp hd with hd | hd
      · rw [hfind, hd]
      · exfalso
        have hmem : d ∈ l.filter (fun x => x.document_type == t) := by
          rw [List.mem_filter]
          exact ⟨hd, by simpa using ht⟩
        have hlen : 1 ≤ (l.filter (fun x => x.document_type == t)).length :=
          List.length_pos.mpr (List.ne_nil_of_mem hmem)
        have : typeCount (a :: l) t =
            (l.filter (fun x => x.document_type == t)).length + 1 := by
          unfold typeCount
          rw [List.filter_cons, if_pos ha]
          simp
        omega
    · have hfind : ClientRequest.getDocumentForType (a :: l) t =
          ClientRequest.getDocumentForType l t := by
        unfold ClientRequest.getDocumentForType
        exact List.find?_cons_of_neg _ (by simpa using ha)
      have hcount : typeCount l t ≤ 1 := by
        have : typeCount (a :: l) t = typeCount l t := by
          unfold typeCount
          rw [List.filter_cons, if_neg ha]
        omega
      rcases List.mem_cons.mp hd with hd | hd
      · exfalso
        apply ha
        rw [← hd]
        simpa using ht
      · rw [hfind]
        exact ih hcount hd

/-- `jsIndexOf` returns -1 exactly as JavaScript `indexOf` does when the
element is absent. -/
theorem jsIndexOf_eq_neg_one_of_not_mem (l : List String) (s : String)
    (h : s ∉ l) : jsIndexOf l s = -1 := by
  induction l with
  | nil => rfl
  | cons a t ih =>
    have hne : (a == s) = false := by
      rw [beq_eq_false_iff_ne]
      intro he
      subst he
      exact h (List.mem_cons_self a t)
    unfold jsIndexOf
    rw [hne]
    simp only [Bool.false_eq_true, if_false]
    rw [ih (fun hm => h (List.mem_cons_of_mem a hm))]
    rfl

/-- C5 (amended): on the request page the progress equals
`round(100 × (required types with an approved current document) /
(required types))` (stated with an existence-based count, equal to the
source's first-match count under the one-row-per-type invariant); on the
dashboard the progress is computed from the request status alone:
25 / 50 / 75 / 100 for the four stages and 25 for any other status. -/
theorem progress_formulas_amended :
    (∀ (request : FilingRequest) (documents : List Document),
      atMostOnePerType documents →
      ClientRequest.getProgress request documents =
        jsRound (((request.required_documents.countP (fun t =>
            decide (∃ d ∈ documents, d.document_type = t
              ∧ d.status = DocStatus.approved))) : ℚ) /
          (request.required_documents.length : ℚ) * 100))
    ∧ ClientDashboard.getProgress "pending" = 25
    ∧ ClientDashboard.getProgress "documents_uploaded" = 50
    ∧ ClientDashboard.getProgress "under_review" = 75
    ∧ ClientDashboard.getProgress "completed" = 100
    ∧ (∀ st, st ∉ ClientDashboard.stages →
        ClientDashboard.getProgress st = 25) := by
  have hdash : ∀ (st : String) (i : Int), jsIndexOf ClientDashboard.stages st = i →
      ClientDashboard.getProgress st =
        max (((i : ℚ) + 1) / 4 * 100) 25 := by
    intro st i hi
    unfold ClientDashboard.getProgress
    rw [hi]
    norm_num [ClientDashboard.stages]
  refine ⟨?_, ?_, ?_, ?_, ?_, ?_⟩
  · intro request documents hinv
    unfold ClientRequest.getProgress
    have hcount : (request.required_documents.filter (fun dt =>
        match ClientRequest.getDocumentForType documents dt with
        | some d => d.status == DocStatus.approved
        | none => false)).length =
        request.required_documents.countP (fun t =>
          decide (∃ d ∈ documents, d.document_type = t
            ∧ d.status = DocStatus.approved)) := by
      rw [List.countP_eq_length_filter]
      congr 1
      apply List.filter_congr
      intro t _
      cases hft : ClientRequest.getDocumentForType documents t with
      | none =>
        simp only []
        symm
        rw [decide_eq_false_iff_not]
        rintro ⟨d, hd, ht, hs⟩
        have := List.find?_eq_none.mp hft d hd
        simp [ht] at this
      | some d =>
        simp only []
        by_cases hs : d.status = DocStatus.approved
        · rw [show (d.status == DocStatus.approved) = true by simp [hs]]
          symm
          rw [decide_eq_true_eq]
          refine ⟨d, List.mem_of_find?_eq_some hft, ?_, hs⟩
          have := List.find?_some hft
          simpa using this
        · rw [show (d.status == DocStatus.approved) = false by simp [hs]]
          symm
          rw [decide_eq_false_iff_not]
          rintro ⟨d2, hd2, ht2, hs2⟩
          have huniq := getDocumentForType_eq_of_unique documents t
            (hinv t) d2 hd2 ht2
          rw [hft] at huniq
          injection huniq with he
          rw [← he] at hs2
          exact hs hs2
    rw [hcount]
  · rw [hdash "pending" 0 (by decide)]
    norm_num
  · rw [hdash "documents_uploaded" 1 (by decide)]
    norm_num
  · rw [hdash "under_review" 2 (by decide)]
    norm_num
  · rw [hdash "completed" 3 (by decide)]
    norm_num
  · intro st hst
    rw [hdash st (-1) (jsIndexOf_eq_neg_one_of_not_mem _ _ hst)]
    norm_num

/-- Document used by the C5 witness: an approved Form 16 row. -/
def approvedForm16 : Document :=
  { id := 1, document_type := "Form 16", name := "f",
    status := DocStatus.approved }

/-- Witness for C5 (amended) at a concrete request with one approved
required document, discharging the one-row-per-type hypothesis. -/
theorem progress_formulas_amended_witness :
    ClientRequest.getProgress
        { required_documents := ["Form 16"], payment_status := "unpaid",
          status := "under_review" } [approvedForm16] =
      jsRound ((((["Form 16"] : List String).countP (fun t =>
          decide (∃ d ∈ [approvedForm16],
            d.document_type = t ∧ d.status = DocStatus.approved))) : ℚ) /
        ((["Form 16"] : List String).length : ℚ) * 100) := by
  apply progress_formulas_amended.1
  intro t
  unfold typeCount
  by_cases h : (approvedForm16.document_type == t) = true
  · simp [List.filter_cons, h]
  · simp [List.filter_cons, h]

/-- State held for one notification key (request id, category): the fixed
deadline registered when the first event of the batch arrived, and the
accumulated pending events (represented by ids). -/
structure KeyBatch where
  deadline : Nat
  batch : List Nat
  deriving DecidableEq, Repr

/-- The per-key queue state: the optional active timer with its pending
batch, and the log of dispatched emails as (dispatch time, batched events)
pairs. -/
structure NotifyQueue where
  pending : Option KeyBatch
  sent : List (Nat × List Nat)
  deriving DecidableEq, Repr

/-- The queue with no active timer and nothing sent. -/
def emptyQueue : NotifyQueue :=
  { pending := none, sent := [] }

/-- The fixed batching delay of spec §4.4: 30 seconds. -/
def batchDelay : Nat := 30

/-- Modelled from the spec: enqueueing one event at time `t` for a key
(spec §4.4, backend notification queue in `backend/server.py`, which is
not part of the corpus).  With no active timer a one-shot timer is
registered for `t + 30` and the batch starts with the event; with an
active timer the event is appended to the pending batch and the timer is
left running (the deadline is NOT reset). -/
def enqueueEvent (s : NotifyQueue) (t e : Nat) : NotifyQueue :=
  match s.pending with
  | none => { s with pending := some { deadline := t + batchDelay, batch := [e] } }
  | some kb =>
    { s with pending := some { deadline := kb.deadline, batch := kb.batch ++ [e] } }

/-- Modelled from the spec: the timer firing (spec §4.4).  All accumulated
events of the key are rendered into one email dispatched at the registered
deadline, and the key's state is cleared. -/
def fireTimer (s : NotifyQueue) : NotifyQueue :=
  match s.pending with
  | none => s
  | some kb => { pending := none, sent := s.sent ++ [(kb.deadline, kb.batch)] }

/-- One event arriving at time `t`: if the active timer's deadline has
passed (deadline ≤ t) it fires first, then the event is enqueued. -/
def stepEvent (s : NotifyQueue) (t e : Nat) : NotifyQueue :=
  let s1 :=
    match s.pending with
    | some kb => if kb.deadline ≤ t then fireTimer s else s
    | none => s
  enqueueEvent s1 t e

/-- Processing a time-ordered list of (time, event) pairs. -/
def runEvents (s : NotifyQueue) (events : List (Nat × Nat)) : NotifyQueue :=
  events.foldl (fun acc te => stepEvent acc te.1 te.2) s

/-- C8: three events at times `t1 ≤ t2 ≤ t3`, all inside the 30-second
window opened at `t1`, are accumulated under the original deadline without
resetting the timer, and exactly one email containing all three is
dispatched at `t1 + 30`; a fourth event at `t4` after that deadline starts
a new independent batch whose own deadline is `t4 + 30`. -/
theorem batching_single_email_at_deadline (t1 t2 t3 t4 e1 e2 e3 e4 : Nat)
    (h12 : t1 ≤ t2) (h23 : t2 ≤ t3) (h3 : t3 < t1 + 30) (h4 : t1 + 30 ≤ t4) :
    runEvents emptyQueue [(t1, e1), (t2, e2), (t3, e3)] =
      { pending := some { deadline := t1 + 30, batch := [e1, e2, e3] },
        sent := [] }
    ∧ fireTimer (runEvents emptyQueue [(t1, e1), (t2, e2), (t3, e3)]) =
      { pending := none, sent := [(t1 + 30, [e1, e2, e3])] }
    ∧ runEvents emptyQueue [(t1, e1), (t2, e2), (t3, e3), (t4, e4)] =
      { pending := some { deadline := t4 + 30, batch := [e4] },
        sent := [(t1 + 30, [e1, e2, e3])] } := by
  have s1 : stepEvent emptyQueue t1 e1 =
      { pending := some { deadline := t1 + 30, batch := [e1] }, sent := [] } := by
    unfold stepEvent enqueueEvent emptyQueue
    rfl
  have s2 : stepEvent
      { pending := some { deadline := t1 + 30, batch := [e1] }, sent := [] }
      t2 e2 =
      { pending := some { deadline := t1 + 30, batch := [e1, e2] }, sent := [] } := by
    unfold stepEvent
    simp only []
    rw [if_neg (by omega)]
    unfold enqueueEvent
    rfl
  have s3 : stepEvent
      { pending := some { deadline := t1 + 30, batch := [e1, e2] }, sent := [] }
      t3 e3 =
      { pending := some { deadline := t1 + 30, batch := [e1, e2, e3] },
        sent := [] } := by
    unfold stepEvent
    simp only []
    rw [if_neg (by omega)]
    unfold enqueueEvent
    rfl
  have hrun : runEvents emptyQueue [(t1, e1), (t2, e2), (t3, e3)] =
      { pending := some { deadline := t1 + 30, batch := [e1, e2, e3] },
        sent := [] } := by
    unfold runEvents
    simp only [List.foldl]
    rw [s1, s2, s3]
  have s4 : stepEvent
      { pending := some { deadline := t1 + 30, batch := [e1, e2, e3] },
        sent := [] }
      t4 e4 =
      { pending := some { deadline := t4 + 30, batch := [e4] },
        sent := [(t1 + 30, [e1, e2, e3])] } := by
    unfold stepEvent
    simp only []
    rw [if_pos (by omega)]
    unfold fireTimer enqueueEvent
    rfl
  refine ⟨hrun, ?_, ?_⟩
  · rw [hrun]
    unfold fireTimer
    rfl
  · unfold runEvents
    simp only [List.foldl]
    rw [s1, s2, s3, s4]

/-- Witness for C8 at the spec's concrete timeline: events at 0, 10, 20
seconds produce one email at second 30 with all three events, and a fourth
event at second 35 starts a new batch with deadline 65. -/
theorem batching_single_email_at_deadline_witness :
    fireTimer (runEvents emptyQueue [(0, 1), (10, 2), (20, 3)]) =
      { pending := none, sent := [(30, [1, 2, 3])] }
    ∧ runEvents emptyQueue [(0, 1), (10, 2), (20, 3), (35, 4)] =
      { pending := some { deadline := 65, batch := [4] },
        sent := [(30, [1, 2, 3])] } := by
  have h := batching_single_email_at_deadline 0 10 20 35 1 2 3 4
    (by norm_num) (by norm_num) (by norm_num) (by norm_num)
  exact ⟨h.2.1, h.2.2⟩
